import Mathlib

/-!
Verification of the Smart History Manager detection core
(`service_worker.js`): URL intent classification, session segmentation,
multi-signal session scoring, suggestion ranking, and the ignore-counter
update of the IGNORE_SUGGESTION handler.

Modelling conventions:

* A URL value is modelled after parsing: `Url.valid hostname pathname search`
  when `new URL(url)` succeeds, `Url.invalid raw` when it throws.
* JS numbers are modelled exactly: integer counters as `Int`/`Nat`,
  fractional scores as `Rat` (the literal `0.6` becomes `6 / 10`).
* `Date#getHours` / `Date#getDay` use the local timezone; the local
  timezone is modelled as UTC.
* A JS object lookup whose key is `null` (from an unparsable URL) is
  modelled as a lookup that finds nothing.
* `scoreSession` dereferences `session[0]` unconditionally, so it throws
  on an empty session; the model returns `none` in that case.
* JS `Array#sort` is a stable sort, modelled by `List.mergeSort`; a JS
  `Map` / `Set` keeps insertion order, modelled by an insertion-ordered
  association list / list.
-/

namespace SmartHistory

/-- Result of `new URL(url)`: either the parsed components or a parse failure. -/
inductive Url where
  | valid (hostname pathname search : String)
  | invalid (raw : String)
deriving DecidableEq

/-- `getDomain`: `new URL(url).hostname`, `null` when parsing throws. -/
def getDomain : Url → Option String
  | .valid h _ _ => some h
  | .invalid _ => none

/-- `getRootDomain`: hostname collapsed to its last two dot-separated labels
when it has more than two; `null` when the hostname is falsy. -/
def getRootDomain (url : Url) : Option String :=
  match getDomain url with
  | none => none
  | some h =>
    if h = "" then none
    else
      let parts := h.splitOn "."
      if 2 < parts.length then some (String.intercalate "." (parts.drop (parts.length - 2)))
      else some h

/-- `getPath`: lower-cased `pathname + search`, empty when parsing throws. -/
def getPath : Url → String
  | .valid _ pathname search => (pathname ++ search).toLower
  | .invalid _ => ""

def startsWithChars : List Char → List Char → Bool
  | [], _ => true
  | _ :: _, [] => false
  | a :: as, b :: bs => a = b && startsWithChars as bs

def containsChars (pat : List Char) : List Char → Bool
  | [] => startsWithChars pat []
  | c :: rest => startsWithChars pat (c :: rest) || containsChars pat rest

/-- JS `String#includes`: `pat` occurs as a contiguous substring of `s`. -/
def strIncludes (s pat : String) : Bool := containsChars pat.toList s.toList

/-- One entry of the URL intent rule table (the JS field `match` is renamed
`matchPattern`, which is not a valid Lean field name). -/
structure IntentRule where
  matchPattern : String
  score : Int
  category : String
  label : String
deriving DecidableEq

/-- The fixed, ordered rule table `URL_INTENT_RULES`. -/
def URL_INTENT_RULES : List IntentRule := [
  ⟨"/watch",      2, "entertainment", "Video"⟩,
  ⟨"/shorts",     2, "entertainment", "Video"⟩,
  ⟨"/clip",       1, "entertainment", "Video"⟩,
  ⟨"/video",      1, "entertainment", "Video"⟩,
  ⟨"/stream",     1, "entertainment", "Video"⟩,
  ⟨"/live",       1, "entertainment", "Video"⟩,
  ⟨"/reels",      2, "social",        "Social"⟩,
  ⟨"/reel",       2, "social",        "Social"⟩,
  ⟨"/story",      1, "social",        "Social"⟩,
  ⟨"/post",       1, "social",        "Social"⟩,
  ⟨"/feed",       1, "social",        "Social"⟩,
  ⟨"/profile",    1, "social",        "Social"⟩,
  ⟨"/explore",    1, "social",        "Social"⟩,
  ⟨"/trending",   1, "social",        "Social"⟩,
  ⟨"/cart",       2, "shopping",      "Shopping"⟩,
  ⟨"/checkout",   3, "shopping",      "Shopping"⟩,
  ⟨"/wishlist",   1, "shopping",      "Shopping"⟩,
  ⟨"/product",    1, "shopping",      "Shopping"⟩,
  ⟨"/item/",      1, "shopping",      "Shopping"⟩,
  ⟨"/dp/",        1, "shopping",      "Shopping"⟩,
  ⟨"/buy",        2, "shopping",      "Shopping"⟩,
  ⟨"/order",      1, "shopping",      "Shopping"⟩,
  ⟨"/adsmanager", -5, "work",         "Ads Manager"⟩,
  ⟨"/business",   -4, "work",         "Business"⟩,
  ⟨"/analytics",  -4, "work",         "Analytics"⟩,
  ⟨"/dashboard",  -4, "work",         "Dashboard"⟩,
  ⟨"/admin",      -3, "work",         "Admin"⟩,
  ⟨"/studio",     -3, "work",         "Studio"⟩,
  ⟨"/manage",     -3, "work",         "Manage"⟩,
  ⟨"/creator",    -2, "work",         "Creator Tools"⟩,
  ⟨"/report",     -2, "work",         "Reports"⟩,
  ⟨"/docs",       -2, "work",         "Docs"⟩,
  ⟨"/api",        -2, "work",         "API"⟩,
  ⟨"/settings",   -1, "work",         "Settings"⟩,
  ⟨"/campaigns",  -3, "work",         "Campaigns"⟩,
  ⟨"/insights",   -2, "work",         "Insights"⟩]

/-- `CATEGORY_META`: per-category label and icon. -/
def CATEGORY_META : String → Option (String × String) := fun c =>
  if c = "entertainment" then some ("Video & Entertainment", "🎬")
  else if c = "social" then some ("Social Media", "📱")
  else if c = "shopping" then some ("Online Shopping", "🛍")
  else if c = "work" then some ("Work Activity", "💼")
  else none

/-- Minimum score to surface a suggestion. -/
def CONFIDENCE_THRESHOLD : Rat := 4

/-- After this many ignores, a domain is auto-treated as work. -/
def AUTO_WORK_IGNORE_COUNT : Int := 3

/-- `classifyUrl`: first rule (in table order) whose pattern occurs in the
lower-cased path+query; `null` when none matches (including unparsable URLs,
whose path is empty). -/
def classifyUrl (url : Url) : Option IntentRule :=
  URL_INTENT_RULES.find? (fun rule => strIncludes (getPath url) rule.matchPattern)

/-- `getConfidence`: presentational tier of a final score. -/
def getConfidence (score : Rat) : String :=
  if 9 ≤ score then "high"
  else if 6 ≤ score then "medium"
  else "low"

/-- A stored domain preference value. -/
inductive DomainPref where
  | work
  | personal
deriving DecidableEq

/-- The `domainPrefs` store: domain string to preference, absent keys `none`. -/
abbrev DomainPrefs := String → Option DomainPref

/-- The `domainIgnoreCounts` store: root domain to counter, absent keys 0
(`counts[k] || 0`). -/
abbrev IgnoreCounts := String → Int

/-- Object lookup whose key may be `null` (unparsable URL): finds nothing. -/
def lookupPref (prefs : DomainPrefs) : Option String → Option DomainPref
  | some key => prefs key
  | none => none

/-- `ignoreCounts[rootDomain] || 0` with a possibly-`null` key. -/
def lookupCount (counts : IgnoreCounts) : Option String → Int
  | some key => counts key
  | none => 0

/-- One value of the `categoryHits` map of `scoreSession`. -/
structure CategoryEntry where
  category : String
  label : String
  icon : String
  count : Nat
  urls : List Url
deriving DecidableEq

/-- The per-item accumulation state of the `scoreSession` loop. -/
structure ScanState where
  urlIntentScore : Int
  workSignalScore : Int
  categoryHits : List CategoryEntry
  domains : List String
deriving DecidableEq

def initScanState : ScanState := ⟨0, 0, [], []⟩

/-- `if (domain) domains.add(domain)` on an insertion-ordered set; the empty
hostname is falsy and is skipped. -/
def addDomain (domains : List String) : Option String → List String
  | none => domains
  | some d => if d = "" then domains else if d ∈ domains then domains else domains ++ [d]

/-- Record one positive rule hit in the insertion-ordered `categoryHits` map:
create the entry (with `CATEGORY_META` label/icon, generic fallback) on first
hit, then increment `count` and append the URL. -/
def addHit (hits : List CategoryEntry) (rule : IntentRule) (url : Url) : List CategoryEntry :=
  let meta := (CATEGORY_META rule.category).getD (rule.category, "🔗")
  if hits.any (fun e => e.category = rule.category) then
    hits.map (fun e =>
      if e.category = rule.category then
        { e with count := e.count + 1, urls := e.urls ++ [url] }
      else e)
  else
    hits ++ [⟨rule.category, meta.1, meta.2, 1, [url]⟩]

/-- A history item as used inside a session: `url` and `lastVisitTime` are
present (the segmenter filters the rest away); `title` / `visitCount` are
unused by the detection core and omitted. -/
structure HistoryItem where
  url : Url
  lastVisitTime : Int
deriving DecidableEq

/-- `const pref = domainPrefs[domain] || domainPrefs[rootDomain]` for one
item: exact-domain lookup falling back to root-domain lookup. -/
def itemPref (domainPrefs : DomainPrefs) (item : HistoryItem) : Option DomainPref :=
  (lookupPref domainPrefs (getDomain item.url)).orElse
    (fun _ => lookupPref domainPrefs (getRootDomain item.url))

/-- The body of the per-item loop of `scoreSession`, one item at a time:
domain-set update, preference tier, adaptive-ignore tier, rule tier. -/
def scanItem (domainPrefs : DomainPrefs) (ignoreCounts : IgnoreCounts)
    (st : ScanState) (item : HistoryItem) : ScanState :=
  let domain := getDomain item.url
  let rootDomain := getRootDomain item.url
  let st := { st with domains := addDomain st.domains domain }
  let pref := itemPref domainPrefs item
  if pref = some DomainPref.work then
    { st with workSignalScore := st.workSignalScore + 3 }
  else
    let st := if pref = some DomainPref.personal then
      { st with urlIntentScore := st.urlIntentScore + 1 } else st
    let ignoreCount := lookupCount ignoreCounts rootDomain
    if AUTO_WORK_IGNORE_COUNT ≤ ignoreCount then
      { st with workSignalScore := st.workSignalScore + 2 }
    else
      match classifyUrl item.url with
      | none => st
      | some rule =>
        if rule.score < 0 then
          { st with workSignalScore := st.workSignalScore + (rule.score.natAbs : Int) }
        else
          { st with urlIntentScore := st.urlIntentScore + rule.score,
                    categoryHits := addHit st.categoryHits rule item.url }

/-- `new Date(t).getHours()`, local timezone modelled as UTC. -/
def jsGetHours (t : Int) : Int := t.fdiv 3600000 % 24

/-- `new Date(t).getDay()` (0 = Sunday), local timezone modelled as UTC. -/
def jsGetDay (t : Int) : Int := (t.fdiv 86400000 + 4) % 7

/-- The `breakdown` record of a scored session. -/
structure Breakdown where
  urlIntent : Int
  domainVariety : Rat
  rapid : Int
  timing : Int
  workSignals : Int
deriving DecidableEq

/-- The result record of `scoreSession`. -/
structure ScoredSession where
  score : Rat
  categories : List CategoryEntry
  domains : List String
  breakdown : Breakdown
deriving DecidableEq

/-- `scoreSession(session, domainPrefs, ignoreCounts)`. On an empty session
the JS code throws (unconditional `session[0]` access); modelled as `none`. -/
def scoreSession (session : List HistoryItem) (domainPrefs : DomainPrefs)
    (ignoreCounts : IgnoreCounts) : Option ScoredSession :=
  match session with
  | [] => none
  | first :: rest =>
    let st := (first :: rest).foldl (scanItem domainPrefs ignoreCounts) initScanState
    let domainVariety : Rat := min ((st.domains.length : Rat) / 5) 2
    let rapidScore : Int :=
      if 3 ≤ (first :: rest).length then
        let lastItem := (first :: rest).getLast (List.cons_ne_nil first rest)
        let durationMin : Rat := ((lastItem.lastVisitTime - first.lastVisitTime : Int) : Rat) / 60000
        if 0 < durationMin then
          let ppm : Rat := ((first :: rest).length : Rat) / durationMin
          if 8 < ppm then 2 else if 3 < ppm then 1 else 0
        else 0
      else 0
    let hour := jsGetHours first.lastVisitTime
    let day := jsGetDay first.lastVisitTime
    let isDuringWork : Bool :=
      decide (1 ≤ day) && decide (day ≤ 5) && decide (9 ≤ hour) && decide (hour < 18)
    let timingScore : Int := if isDuringWork then 1 else 0
    let total : Rat := (st.urlIntentScore : Rat) + domainVariety + (rapidScore : Rat)
        + (timingScore : Rat) - (st.workSignalScore : Rat) * (6 / 10)
    some {
      score := max 0 total
      categories := st.categoryHits.mergeSort (fun a b => decide (b.count ≤ a.count))
      domains := st.domains
      breakdown := {
        urlIntent := st.urlIntentScore
        domainVariety := domainVariety
        rapid := rapidScore
        timing := timingScore
        workSignals := st.workSignalScore } }

/-- A raw history item as handed to `detectMixedSessions`: `url` or
`lastVisitTime` may be missing (JS falsy values modelled as `none`). -/
structure RawHistoryItem where
  url : Option Url
  lastVisitTime : Option Int
deriving DecidableEq

def SESSION_GAP_MS : Int := 30 * 60 * 1000

/-- `items.filter(i => i.lastVisitTime && i.url)`, with the surviving items
repackaged with both fields present. -/
def validItems (items : List RawHistoryItem) : List HistoryItem :=
  items.filterMap (fun i =>
    match i.url, i.lastVisitTime with
    | some u, some t => some ⟨u, t⟩
    | _, _ => none)

def itemLe (a b : HistoryItem) : Bool := decide (a.lastVisitTime ≤ b.lastVisitTime)

/-- `.sort((a, b) => a.lastVisitTime - b.lastVisitTime)` (stable, ascending). -/
def sortItems (l : List HistoryItem) : List HistoryItem := l.mergeSort itemLe

/-- The tail of the session-splitting loop: given the previous item, return
the remainder of the current session and the later sessions. -/
def chunkGo (prev : HistoryItem) : List HistoryItem → List HistoryItem × List (List HistoryItem)
  | [] => ([], [])
  | x :: xs =>
    let r := chunkGo x xs
    if SESSION_GAP_MS < x.lastVisitTime - prev.lastVisitTime then
      ([], (x :: r.1) :: r.2)
    else
      (x :: r.1, r.2)

/-- The session-splitting loop of `detectMixedSessions`: a break exactly
where the gap to the previous item exceeds `SESSION_GAP_MS`. -/
def chunk : List HistoryItem → List (List HistoryItem)
  | [] => []
  | x :: xs =>
    let r := chunkGo x xs
    (x :: r.1) :: r.2

/-- The segmentation stage of `detectMixedSessions`: filter, sort, split. -/
def segment (items : List RawHistoryItem) : List (List HistoryItem) :=
  chunk (sortItems (validItems items))

/-- One suggestion record built by `detectMixedSessions`. -/
structure Suggestion where
  id : String
  sessionStart : Int
  sessionEnd : Int
  totalItems : Nat
  score : Rat
  confidence : String
  categories : List CategoryEntry
  domains : List String
  allUrls : List Url
  breakdown : Breakdown
deriving DecidableEq

/-- The per-session body of the suggestion loop: size gate, scoring,
threshold and category gates, then the suggestion record. (The `none`
branch on `scoreSession` is unreachable: the session is non-empty.) -/
def mkSuggestion (domainPrefs : DomainPrefs) (ignoreCounts : IgnoreCounts) :
    List HistoryItem → Option Suggestion
  | [] => none
  | first :: rest =>
    if (first :: rest).length < 5 then none
    else
      match scoreSession (first :: rest) domainPrefs ignoreCounts with
      | none => none
      | some scored =>
        if scored.score < CONFIDENCE_THRESHOLD then none
        else if scored.categories.length = 0 then none
        else
          let sessionStart := first.lastVisitTime
          let sessionEnd := ((first :: rest).getLast (List.cons_ne_nil first rest)).lastVisitTime
          some {
            id := "session_" ++ toString sessionStart
            sessionStart := sessionStart
            sessionEnd := sessionEnd
            totalItems := (first :: rest).length
            score := scored.score
            confidence := getConfidence scored.score
            categories := scored.categories
            domains := scored.domains
            allUrls := (scored.categories.map CategoryEntry.urls).flatten
            breakdown := scored.breakdown }

/-- `(a, b) => b.score - a.score || b.sessionStart - a.sessionStart`:
`a` may stay before `b` iff `a` scores higher, or ties and is more recent
or equal. -/
def suggestionLe (a b : Suggestion) : Bool :=
  decide (b.score < a.score) ||
    (decide (a.score = b.score) && decide (b.sessionStart ≤ a.sessionStart))

/-- `detectMixedSessions(items, domainPrefs, ignoreCounts)`: segment, gate,
score, gate, rank, truncate to 5. -/
def detectMixedSessions (items : List RawHistoryItem) (domainPrefs : DomainPrefs)
    (ignoreCounts : IgnoreCounts) : List Suggestion :=
  let sessions := segment items
  let suggestions := sessions.filterMap (mkSuggestion domainPrefs ignoreCounts)
  (suggestions.mergeSort suggestionLe).take 5

/-- `domain.split(".").slice(-2).join(".")` in the IGNORE_SUGGESTION handler
(no length guard: shorter hostnames pass through unchanged). -/
def sliceRootDomain (domain : String) : String :=
  let parts := domain.splitOn "."
  String.intercalate "." (parts.drop (parts.length - 2))

/-- The IGNORE_SUGGESTION handler's state update: remember the suggestion id
and bump the ignore counter of each listed domain's root domain by 1. -/
def ignoreSuggestion (suggestionId : String) (domains : List String)
    (ignored : List String) (counts : IgnoreCounts) : List String × IgnoreCounts :=
  let ignored2 := if suggestionId ∈ ignored then ignored else ignored ++ [suggestionId]
  let counts2 := domains.foldl
    (fun c domain =>
      let root := sliceRootDomain domain
      fun key => if key = root then c key + 1 else c key)
    counts
  (ignored2, counts2)

/-! ### Shared concrete data for witnesses and end-to-end checks -/

/-- Empty preference store. -/
def noPrefs : DomainPrefs := fun _ => none

/-- Empty ignore-counter store. -/
def noCounts : IgnoreCounts := fun _ => 0

/-- A youtube.com URL with the given pathname and query. -/
def ytUrl (p q : String) : Url := Url.valid "youtube.com" p q

/-- First item of the spec's end-to-end example, 2024-01-03T14:00Z,
a Wednesday at 14:00 (local time modelled as UTC). -/
def ytFirst : HistoryItem := ⟨ytUrl "/watch" "?x", 1704290400000⟩

/-- Remaining items of the end-to-end example, 30 s apart. -/
def ytRest : List HistoryItem := [
  ⟨ytUrl "/watch" "?y", 1704290430000⟩,
  ⟨ytUrl "/shorts" "", 1704290460000⟩,
  ⟨ytUrl "/feed" "", 1704290490000⟩,
  ⟨ytUrl "/explore" "", 1704290520000⟩]

/-- The spec's end-to-end example: 5 youtube.com items within 2 minutes
starting on a Wednesday at 14:00. -/
def ytItems : List HistoryItem := ytFirst :: ytRest

/-- The same example as raw input to `detectMixedSessions`. -/
def ytRawItems : List RawHistoryItem :=
  ytItems.map (fun i => ⟨some i.url, some i.lastVisitTime⟩)

/-- A preference store marking a.com personal. -/
def cePrefs : DomainPrefs := fun k => if k = "a.com" then some DomainPref.personal else none

/-- An ignore-counter store with 3 recorded ignores for a.com. -/
def ceCounts : IgnoreCounts := fun k => if k = "a.com" then 3 else 0

/-- A single /watch item on the personal-preferenced, thrice-ignored a.com. -/
def ceItem : HistoryItem := ⟨Url.valid "a.com" "/watch" "", 0⟩

/-- A placeholder `ScoredSession` for `Option.getD`. -/
def blankScored : ScoredSession := ⟨0, [], [], ⟨0, 0, 0, 0, 0⟩⟩

/-- A placeholder `Suggestion` for `List.headD`. -/
def blankSuggestion : Suggestion := ⟨"", 0, 0, 0, 0, "", [], [], [], ⟨0, 0, 0, 0, 0⟩⟩

/-! ### C6: the final score is never negative -/

/-- C6: for every non-empty session and every preference map and ignore-count
map, the score produced by `scoreSession` is non-negative. -/
theorem scoreSession_score_nonneg (session : List HistoryItem) (domainPrefs : DomainPrefs)
    (ignoreCounts : IgnoreCounts) (r : ScoredSession)
    (h : scoreSession session domainPrefs ignoreCounts = some r) : 0 ≤ r.score := by
  cases session with
  | nil => simp [scoreSession] at h
  | cons first rest =>
    simp only [scoreSession, Option.some.injEq] at h
    subst h
    exact le_max_left 0 _

/-- Witness for C6 at the concrete end-to-end example session. -/
theorem scoreSession_score_nonneg_witness :
    0 ≤ ((scoreSession ytItems noPrefs noCounts).getD blankScored).score := by
  have h : scoreSession ytItems noPrefs noCounts =
      some ((scoreSession ytItems noPrefs noCounts).getD blankScored) := by
    with_unfolding_all rfl
  exact scoreSession_score_nonneg ytItems noPrefs noCounts _ h

/-! ### C10: totality of `scoreSession` on non-empty sessions -/

/-- C10: `scoreSession` returns a result exactly when the session is
non-empty: the unconditional `session[0]` / last-item accesses are in bounds
for every non-empty session (and every preference/ignore store), and the
empty session is a genuine precondition violation (modelled as `none`). -/
theorem scoreSession_isSome_iff (session : List HistoryItem) (domainPrefs : DomainPrefs)
    (ignoreCounts : IgnoreCounts) :
    (scoreSession session domainPrefs ignoreCounts).isSome = true ↔ session ≠ [] := by
  cases session with
  | nil => simp [scoreSession]
  | cons first rest => simp [scoreSession]

/-! ### C9: the ignore operation touches exactly the listed root domains -/

/-- Pointwise effect of the counter-bumping fold of the handler. -/
theorem bumpCounts_foldl (domains : List String) (counts : IgnoreCounts) (key : String) :
    domains.foldl (fun c domain =>
        let root := sliceRootDomain domain
        fun k => if k = root then c k + 1 else c k) counts key =
      counts key + (domains.countP (fun d => decide (sliceRootDomain d = key)) : Int) := by
  induction domains generalizing counts with
  | nil => simp
  | cons d ds ih =>
    rw [List.foldl_cons, ih, List.countP_cons]
    by_cases hd : sliceRootDomain d = key
    · subst hd
      simp
      omega
    · simp [hd, Ne.symm hd]

/-- C9: the IGNORE_SUGGESTION counter update increments, for each listed
domain, the counter keyed by that domain's root domain by 1 per occurrence;
every other counter is unchanged (its occurrence count is 0). -/
theorem ignoreSuggestion_counts (suggestionId : String) (domains : List String)
    (ignored : List String) (counts : IgnoreCounts) (key : String) :
    (ignoreSuggestion suggestionId domains ignored counts).2 key =
      counts key + (domains.countP (fun d => decide (sliceRootDomain d = key)) : Int) :=
  bumpCounts_foldl domains counts key

/-! ### C8: malformed URLs degrade gracefully -/

/-- An unparsable URL has an empty path, so no rule can match it. -/
theorem classifyUrl_invalid (raw : String) : classifyUrl (Url.invalid raw) = none := by
  simp only [classifyUrl, getPath]
  with_unfolding_all decide

/-- C8: for every unparsable URL, domain and root-domain resolution return
`none`, path extraction returns the empty string, classification returns
`none`, and an item carrying such a URL leaves the entire scan state
unchanged (no domain-set contribution, no preference or ignore hit, no
score or category contribution). -/
theorem invalid_url_graceful (raw : String) (st : ScanState)
    (domainPrefs : DomainPrefs) (ignoreCounts : IgnoreCounts) (t : Int) :
    getDomain (Url.invalid raw) = none ∧
    getRootDomain (Url.invalid raw) = none ∧
    getPath (Url.invalid raw) = "" ∧
    classifyUrl (Url.invalid raw) = none ∧
    scanItem domainPrefs ignoreCounts st ⟨Url.invalid raw, t⟩ = st := by
  refine ⟨rfl, rfl, rfl, classifyUrl_invalid raw, ?_⟩
  simp [scanItem, itemPref, lookupPref, lookupCount, getDomain, getRootDomain,
    addDomain, classifyUrl_invalid, AUTO_WORK_IGNORE_COUNT]

/-! ### C7: first-match-wins classification -/

/-- A successful `find?` returns the first satisfying element. -/
theorem find?_first {α : Type} (p : α → Bool) (l : List α) (a : α)
    (h : l.find? p = some a) :
    ∃ i : Fin l.length, l.get i = a ∧ p a = true ∧
      ∀ j : Fin l.length, (j : Nat) < (i : Nat) → p (l.get j) = false := by
  induction l with
  | nil => simp at h
  | cons x xs ih =>
    by_cases hx : p x = true
    · rw [List.find?_cons_of_pos _ hx] at h
      obtain rfl : x = a := by injection h
      refine ⟨⟨0, by simp⟩, rfl, hx, ?_⟩
      intro j hj
      exact absurd hj (Nat.not_lt_zero _)
    · rw [List.find?_cons_of_neg _ hx] at h
      obtain ⟨i, hget, hpa, hfirst⟩ := ih h
      refine ⟨⟨i.val + 1, by simp⟩, by simpa using hget, hpa, ?_⟩
      rintro ⟨jv, hjlt⟩ hj
      cases jv with
      | zero => simpa using hx
      | succ k =>
        have hjlt2 : k < xs.length := by
          simp at hjlt
          omega
        have hk2 : k < i.val := by
          simp at hj
          omega
        simpa using hfirst ⟨k, hjlt2⟩ hk2

/-- C7: `classifyUrl` returns the first rule in the fixed table order whose
pattern is a substring of the lower-cased path+query; `none` when no rule
matches; and `none` (fails closed) for an unparsable URL. -/
theorem classifyUrl_first_match (url : Url) :
    (∀ raw, url = Url.invalid raw → classifyUrl url = none) ∧
    (∀ rule, classifyUrl url = some rule →
      ∃ i : Fin URL_INTENT_RULES.length,
        URL_INTENT_RULES.get i = rule ∧
        strIncludes (getPath url) rule.matchPattern = true ∧
        ∀ j : Fin URL_INTENT_RULES.length, (j : Nat) < (i : Nat) →
          strIncludes (getPath url) (URL_INTENT_RULES.get j).matchPattern = false) ∧
    (classifyUrl url = none →
      ∀ rule ∈ URL_INTENT_RULES, strIncludes (getPath url) rule.matchPattern = false) := by
  refine ⟨?_, ?_, ?_⟩
  · rintro raw rfl
    exact classifyUrl_invalid raw
  · intro rule h
    exact find?_first _ _ _ h
  · intro h rule hr
    have := List.find?_eq_none.mp h rule hr
    simpa using this

/-- Witness for C7: a path containing both "/reel" and "/reels" resolves to
the "/reels" rule, the earlier of the two in the table. -/
theorem classifyUrl_first_match_witness :
    classifyUrl (Url.valid "x.com" "/reels" "") = some ⟨"/reels", 2, "social", "Social"⟩ ∧
    strIncludes (getPath (Url.valid "x.com" "/reels" "")) "/reel" = true ∧
    strIncludes (getPath (Url.valid "x.com" "/reels" "")) "/reels" = true := by
  have h : classifyUrl (Url.valid "x.com" "/reels" "") =
      some ⟨"/reels", 2, "social", "Social"⟩ := by with_unfolding_all decide
  obtain ⟨i, hget, hmatch, hfirst⟩ :=
    (classifyUrl_first_match (Url.valid "x.com" "/reels" "")).2.1 _ h
  exact ⟨h, by with_unfolding_all decide, hmatch⟩

/-! ### C1: interaction of the "personal" preference with adaptive memory -/

/-- C1 counterexample: a single-item session on a domain preferenced
"personal" whose root domain has 3 recorded ignores, visiting a /watch path.
The claim predicts the item continues to rule classification (urlIntent
1+2 = 3, a recorded entertainment category, no work signal); the code
instead fires the adaptive-memory tier after the personal boost:
urlIntent 1, workSignals 2, and no category recorded. -/
theorem scanItem_personal_ignore_counterexample :
    (scoreSession [ceItem] cePrefs ceCounts).map
        (fun r => (r.breakdown.urlIntent, r.breakdown.workSignals, r.categories.length)) =
      some (1, 2, 0) := by
  with_unfolding_all decide

/-- C1 (amended): a "personal" preference adds 1 to `urlIntentScore` and the
item then continues to the adaptive-memory check exactly like an
unpreferenced item: when `ignoreCounts[rootDomain] ≥ 3` it additionally adds
2 to `workSignalScore` and skips rule classification (no category hit), and
only when the ignore count is below 3 does it continue to rule
classification. -/
theorem scanItem_personal (domainPrefs : DomainPrefs) (ignoreCounts : IgnoreCounts)
    (st : ScanState) (item : HistoryItem)
    (hpref : itemPref domainPrefs item = some DomainPref.personal) :
    (AUTO_WORK_IGNORE_COUNT ≤ lookupCount ignoreCounts (getRootDomain item.url) →
      scanItem domainPrefs ignoreCounts st item =
        { st with domains := addDomain st.domains (getDomain item.url),
                  urlIntentScore := st.urlIntentScore + 1,
                  workSignalScore := st.workSignalScore + 2 }) ∧
    (lookupCount ignoreCounts (getRootDomain item.url) < AUTO_WORK_IGNORE_COUNT →
      scanItem domainPrefs ignoreCounts st item =
        (let st1 : ScanState :=
          { st with domains := addDomain st.domains (getDomain item.url),
                    urlIntentScore := st.urlIntentScore + 1 }
        match classifyUrl item.url with
        | none => st1
        | some rule =>
          if rule.score < 0 then
            { st1 with workSignalScore := st1.workSignalScore + (rule.score.natAbs : Int) }
          else
            { st1 with urlIntentScore := st1.urlIntentScore + rule.score,
                       categoryHits := addHit st1.categoryHits rule item.url })) := by
  constructor
  · intro hcnt
    simp [scanItem, hpref, if_pos hcnt]
  · intro hcnt
    simp [scanItem, hpref, if_neg (not_le.mpr hcnt)]

/-- Witness for C1 (amended) at the concrete counterexample input. -/
theorem scanItem_personal_witness :
    scanItem cePrefs ceCounts initScanState ceItem =
      { initScanState with
          domains := addDomain initScanState.domains (getDomain ceItem.url),
          urlIntentScore := initScanState.urlIntentScore + 1,
          workSignalScore := initScanState.workSignalScore + 2 } :=
  (scanItem_personal cePrefs ceCounts initScanState ceItem (by with_unfolding_all decide)).1
    (by with_unfolding_all decide)

/-! ### C5: rapid-navigation tiers -/

/-- C5: for a session of at least 3 items whose first-to-last duration is
positive, the rapid-navigation component is the highest satisfied tier of
pages-per-minute (0 when ≤ 3 ppm, 1 above 3 ppm, 2 above 8 ppm); a session
of fewer than 3 items scores 0, as does one with non-positive duration. -/
theorem rapid_navigation_tiers (first : HistoryItem) (rest : List HistoryItem)
    (domainPrefs : DomainPrefs) (ignoreCounts : IgnoreCounts) (r : ScoredSession)
    (dur ppm : Rat)
    (h : scoreSession (first :: rest) domainPrefs ignoreCounts = some r)
    (hdur : dur = ((((first :: rest).getLast (List.cons_ne_nil first rest)).lastVisitTime
        - first.lastVisitTime : Int) : Rat) / 60000)
    (hppm : ppm = ((first :: rest).length : Rat) / dur) :
    ((first :: rest).length < 3 → r.breakdown.rapid = 0) ∧
    (3 ≤ (first :: rest).length →
      (dur ≤ 0 → r.breakdown.rapid = 0) ∧
      (0 < dur → ppm ≤ 3 → r.breakdown.rapid = 0) ∧
      (0 < dur → 3 < ppm → ppm ≤ 8 → r.breakdown.rapid = 1) ∧
      (0 < dur → 8 < ppm → r.breakdown.rapid = 2)) := by
  simp only [scoreSession, Option.some.injEq] at h
  subst h
  subst hdur
  subst hppm
  simp only []
  constructor
  · intro hlen
    rw [if_neg (by omega)]
  · intro hlen
    rw [if_pos hlen]
    refine ⟨?_, ?_, ?_, ?_⟩
    · intro hd
      rw [if_neg (not_lt.mpr hd)]
    · intro hd hp
      rw [if_pos hd, if_neg (by linarith), if_neg (not_lt.mpr hp)]
    · intro hd hp3 hp8
      rw [if_pos hd, if_neg (not_lt.mpr hp8), if_pos hp3]
    · intro hd hp8
      rw [if_pos hd, if_pos hp8]

/-- Witness for C5 at the end-to-end example session: 5 items over 2 minutes
give 2.5 ppm, below the first tier, so the component is 0. -/
theorem rapid_navigation_tiers_witness :
    ((scoreSession ytItems noPrefs noCounts).getD blankScored).breakdown.rapid = 0 := by
  have h : scoreSession (ytFirst :: ytRest) noPrefs noCounts =
      some ((scoreSession ytItems noPrefs noCounts).getD blankScored) := by
    with_unfolding_all rfl
  have hdur : (2 : Rat) = ((((ytFirst :: ytRest).getLast
      (List.cons_ne_nil ytFirst ytRest)).lastVisitTime
        - ytFirst.lastVisitTime : Int) : Rat) / 60000 := by
    with_unfolding_all decide
  have hppm : (5 / 2 : Rat) = ((ytFirst :: ytRest).length : Rat) / 2 := by
    with_unfolding_all decide
  exact ((rapid_navigation_tiers ytFirst ytRest noPrefs noCounts _ 2 (5 / 2)
      h hdur hppm).2 (by decide)).2.1 (by with_unfolding_all decide)
    (by with_unfolding_all decide)

/-! ### C2: the end-to-end example -/

/-- C2: on the concrete 5-item youtube.com example session (paths /watch?x,
/watch?y, /shorts, /feed, /explore within 2 minutes on a Wednesday at 14:00,
empty preference and ignore stores) the scorer produces urlIntentScore 8,
domainVariety 0.2, rapidNavigation 0, timing 1, workSignalScore 0, total
score 9.2 and confidence "high", with categories entertainment (count 3)
and social (count 2); detection surfaces exactly this session. -/
theorem end_to_end_example :
    (scoreSession ytItems noPrefs noCounts).map (fun r =>
        (r.breakdown.urlIntent, r.breakdown.domainVariety, r.breakdown.rapid,
         r.breakdown.timing, r.breakdown.workSignals, r.score)) =
      some (8, 1 / 5, 0, 1, 0, 46 / 5) ∧
    (scoreSession ytItems noPrefs noCounts).map (fun r =>
        r.categories.map (fun cat => (cat.category, cat.count))) =
      some [("entertainment", 3), ("social", 2)] ∧
    (detectMixedSessions ytRawItems noPrefs noCounts).map (fun s =>
        (s.id, s.score, s.confidence, s.totalItems)) =
      [("session_1704290400000", 46 / 5, "high", 5)] := by
  refine ⟨?_, ?_, ?_⟩
  · with_unfolding_all rfl
  · with_unfolding_all decide
  · with_unfolding_all rfl

/-! ### C3: segmentation is a gap-delimited partition -/

/-- Two adjacent items are within the session gap. -/
def gapLe (a b : HistoryItem) : Prop :=
  b.lastVisitTime - a.lastVisitTime ≤ SESSION_GAP_MS

/-- The gap from the last item of `s` to the first item of `t` exceeds the
session gap. -/
def boundaryGt (s t : List HistoryItem) : Prop :=
  ∀ a b, s.getLast? = some a → t.head? = some b →
    SESSION_GAP_MS < b.lastVisitTime - a.lastVisitTime

/-- Concatenating the split's current session remainder and later sessions
restores its input. -/
theorem chunkGo_flatten (xs : List HistoryItem) : ∀ prev : HistoryItem,
    (chunkGo prev xs).1 ++ ((chunkGo prev xs).2).flatten = xs := by
  induction xs with
  | nil => intro prev; simp [chunkGo]
  | cons x xs ih =>
    intro prev
    have hx := ih x
    rcases hr : chunkGo x xs with ⟨cur, sessions⟩
    rw [hr] at hx
    simp only [chunkGo, hr]
    split
    · simpa using hx
    · simpa using hx

/-- Every session produced by the split tail is non-empty. -/
theorem chunkGo_ne_nil (xs : List HistoryItem) : ∀ prev : HistoryItem,
    ∀ s ∈ (chunkGo prev xs).2, s ≠ [] := by
  induction xs with
  | nil => intro prev s hs; simp [chunkGo] at hs
  | cons x xs ih =>
    intro prev s hs
    have hx := ih x
    rcases hr : chunkGo x xs with ⟨cur, sessions⟩
    rw [hr] at hx
    simp only [chunkGo, hr] at hs
    split at hs
    · rcases List.mem_cons.mp hs with rfl | hmem
      · exact List.cons_ne_nil _ _
      · exact hx s hmem
    · exact hx s hs

/-- Adjacent items inside each produced session are within the gap. -/
theorem chunkGo_chain (xs : List HistoryItem) : ∀ prev : HistoryItem,
    List.Chain' gapLe (prev :: (chunkGo prev xs).1) ∧
      ∀ s ∈ (chunkGo prev xs).2, List.Chain' gapLe s := by
  induction xs with
  | nil =>
    intro prev
    refine ⟨by simp [chunkGo], ?_⟩
    intro s hs
    simp [chunkGo] at hs
  | cons x xs ih =>
    intro prev
    obtain ⟨hchain, hsess⟩ := ih x
    rcases hr : chunkGo x xs with ⟨cur, sessions⟩
    rw [hr] at hchain hsess
    simp only [chunkGo, hr]
    split
    case isTrue hcond =>
      refine ⟨by simp, ?_⟩
      intro s hs
      rcases List.mem_cons.mp hs with rfl | hmem
      · exact hchain
      · exact hsess s hmem
    case isFalse hcond =>
      refine ⟨List.chain'_cons.mpr ⟨?_, hchain⟩, hsess⟩
      exact not_lt.mp hcond

/-- Consecutive produced sessions are separated by more than the gap. -/
theorem chunkGo_boundary (xs : List HistoryItem) : ∀ prev : HistoryItem,
    List.Chain' boundaryGt ((prev :: (chunkGo prev xs).1) :: (chunkGo prev xs).2) := by
  induction xs with
  | nil => intro prev; simp [chunkGo]
  | cons x xs ih =>
    intro prev
    have hih := ih x
    rcases hr : chunkGo x xs with ⟨cur, sessions⟩
    rw [hr] at hih
    simp only [chunkGo, hr]
    split
    case isTrue hcond =>
      refine List.chain'_cons.mpr ⟨?_, hih⟩
      intro a b ha hb
      simp only [List.getLast?_singleton, Option.some.injEq] at ha
      simp only [List.head?_cons, Option.some.injEq] at hb
      subst ha
      subst hb
      exact hcond
    case isFalse hcond =>
      rcases List.chain'_cons'.mp hih with ⟨hhead, htail⟩
      refine List.chain'_cons'.mpr ⟨?_, htail⟩
      intro t ht
      intro a b ha hb
      rw [List.getLast?_cons_cons] at ha
      exact hhead t ht a b ha hb

/-- The produced sessions concatenate back to the split's input. -/
theorem chunk_flatten (l : List HistoryItem) : (chunk l).flatten = l := by
  cases l with
  | nil => rfl
  | cons x xs =>
    have hx := chunkGo_flatten xs x
    rcases hr : chunkGo x xs with ⟨cur, sessions⟩
    rw [hr] at hx
    simp only [chunk, hr]
    simpa using hx

/-- Every session produced by the split is non-empty. -/
theorem chunk_ne_nil (l : List HistoryItem) : ∀ s ∈ chunk l, s ≠ [] := by
  cases l with
  | nil => intro s hs; simp [chunk] at hs
  | cons x xs =>
    intro s hs
    have hx := chunkGo_ne_nil xs x
    rcases hr : chunkGo x xs with ⟨cur, sessions⟩
    rw [hr] at hx
    simp only [chunk, hr] at hs
    rcases List.mem_cons.mp hs with rfl | hmem
    · exact List.cons_ne_nil _ _
    · exact hx s hmem

/-- Intra-session gaps of the split are within the session gap. -/
theorem chunk_chain (l : List HistoryItem) : ∀ s ∈ chunk l, List.Chain' gapLe s := by
  cases l with
  | nil => intro s hs; simp [chunk] at hs
  | cons x xs =>
    intro s hs
    obtain ⟨hchain, hsess⟩ := chunkGo_chain xs x
    rcases hr : chunkGo x xs with ⟨cur, sessions⟩
    rw [hr] at hchain hsess
    simp only [chunk, hr] at hs
    rcases List.mem_cons.mp hs with rfl | hmem
    · exact hchain
    · exact hsess s hmem

/-- Cross-session gaps of the split exceed the session gap. -/
theorem chunk_boundary (l : List HistoryItem) : List.Chain' boundaryGt (chunk l) := by
  cases l with
  | nil => simp [chunk]
  | cons x xs =>
    have hb := chunkGo_boundary xs x
    rcases hr : chunkGo x xs with ⟨cur, sessions⟩
    rw [hr] at hb
    simpa only [chunk, hr] using hb

theorem itemLe_trans (a b c : HistoryItem) (hab : itemLe a b = true)
    (hbc : itemLe b c = true) : itemLe a c = true := by
  simp only [itemLe, decide_eq_true_eq] at *
  omega

theorem itemLe_total (a b : HistoryItem) : (itemLe a b || itemLe b a) = true := by
  simp only [itemLe, Bool.or_eq_true, decide_eq_true_eq]
  omega

/-- C3: segmentation keeps exactly the items having both a url and a
lastVisitTime — the concatenation of the produced sessions is the sorted
(ascending by lastVisitTime) filtered input, hence a permutation of the
filtered input set; sessions are non-empty; each gap between consecutive
items inside a session is ≤ SESSION_GAP_MS; and the gap between the last
item of a session and the first item of the next exceeds SESSION_GAP_MS. -/
theorem segment_partition (items : List RawHistoryItem) :
    ((segment items).flatten).Perm (validItems items) ∧
    ((segment items).flatten).Pairwise
      (fun a b => a.lastVisitTime ≤ b.lastVisitTime) ∧
    (∀ s ∈ segment items, s ≠ []) ∧
    (∀ s ∈ segment items, List.Chain' gapLe s) ∧
    List.Chain' boundaryGt (segment items) := by
  have hflat : (segment items).flatten = sortItems (validItems items) :=
    chunk_flatten _
  refine ⟨?_, ?_, chunk_ne_nil _, chunk_chain _, chunk_boundary _⟩
  · rw [hflat]
    exact List.mergeSort_perm _ _
  · rw [hflat]
    have hp : (sortItems (validItems items)).Pairwise (fun a b => itemLe a b = true) := by
      simpa using List.sorted_mergeSort itemLe_trans itemLe_total (validItems items)
    exact hp.imp (fun h => by simpa [itemLe] using h)

/-- Witness for C3 at the end-to-end example input: the single produced
session satisfies the intra-session gap bound, and the concatenation is a
permutation of the filtered input. -/
theorem segment_partition_witness :
    ((segment ytRawItems).flatten).Perm (validItems ytRawItems) ∧
    List.Chain' gapLe ytItems := by
  have hseg : segment ytRawItems = [ytItems] := by with_unfolding_all rfl
  refine ⟨(segment_partition ytRawItems).1, ?_⟩
  refine (segment_partition ytRawItems).2.2.2.1 ytItems ?_
  rw [hseg]
  exact List.mem_singleton_self _

/-! ### C4: gating, ranking and truncation of suggestions -/

theorem suggestionLe_iff (a b : Suggestion) :
    suggestionLe a b = true ↔
      (b.score < a.score ∨ (a.score = b.score ∧ b.sessionStart ≤ a.sessionStart)) := by
  simp [suggestionLe]

theorem suggestionLe_trans (a b c : Suggestion) (hab : suggestionLe a b = true)
    (hbc : suggestionLe b c = true) : suggestionLe a c = true := by
  rw [suggestionLe_iff] at *
  rcases hab with h1 | ⟨h1, h2⟩ <;> rcases hbc with h3 | ⟨h3, h4⟩
  · exact Or.inl (lt_trans h3 h1)
  · exact Or.inl (h3 ▸ h1)
  · exact Or.inl (by rw [h1]; exact h3)
  · exact Or.inr ⟨h1.trans h3, le_trans h4 h2⟩

theorem suggestionLe_total (a b : Suggestion) :
    (suggestionLe a b || suggestionLe b a) = true := by
  simp only [Bool.or_eq_true, suggestionLe_iff]
  rcases lt_trichotomy a.score b.score with h | h | h
  · exact Or.inr (Or.inl h)
  · rcases Int.le_total a.sessionStart b.sessionStart with hs | hs
    · exact Or.inr (Or.inr ⟨h.symm, hs⟩)
    · exact Or.inl (Or.inr ⟨h, hs⟩)
  · exact Or.inl (Or.inl h)

/-- A session only ever becomes a suggestion when it has at least 5 items,
scores at least the confidence threshold, and recorded at least one
category. -/
theorem mkSuggestion_gates (domainPrefs : DomainPrefs) (ignoreCounts : IgnoreCounts)
    (session : List HistoryItem) (s : Suggestion)
    (h : mkSuggestion domainPrefs ignoreCounts session = some s) :
    5 ≤ s.totalItems ∧ CONFIDENCE_THRESHOLD ≤ s.score ∧ s.categories ≠ [] := by
  cases session with
  | nil => simp [mkSuggestion] at h
  | cons first rest =>
    simp only [mkSuggestion] at h
    by_cases h5 : (first :: rest).length < 5
    · rw [if_pos h5] at h
      exact absurd h (by simp)
    · rw [if_neg h5] at h
      cases hsc : scoreSession (first :: rest) domainPrefs ignoreCounts with
      | none => rw [hsc] at h; simp at h
      | some scored =>
        rw [hsc] at h
        simp only [] at h
        by_cases hth : scored.score < CONFIDENCE_THRESHOLD
        · rw [if_pos hth] at h
          simp at h
        · rw [if_neg hth] at h
          by_cases hcat : scored.categories.length = 0
          · rw [if_pos hcat] at h
            simp at h
          · rw [if_neg hcat] at h
            simp only [Option.some.injEq] at h
            subst h
            refine ⟨by simpa using not_lt.mp h5, not_lt.mp hth, ?_⟩
            simpa [List.length_eq_zero] using hcat

/-- C4: the suggestion list contains only sessions with at least 5 items,
score at least the threshold 4 and a non-empty category list; it is sorted
descending by score with ties broken by more recent sessionStart; it has at
most 5 entries; and, together with the dropped tail of the ranking (whose
members all score no higher than any returned suggestion), it is a
permutation of all qualifying suggestions — so exactly the highest-scoring
qualifying sessions are returned. -/
theorem detect_ranking (items : List RawHistoryItem) (domainPrefs : DomainPrefs)
    (ignoreCounts : IgnoreCounts) :
    (detectMixedSessions items domainPrefs ignoreCounts).length ≤ 5 ∧
    (∀ s ∈ detectMixedSessions items domainPrefs ignoreCounts,
      5 ≤ s.totalItems ∧ CONFIDENCE_THRESHOLD ≤ s.score ∧ s.categories ≠ []) ∧
    (detectMixedSessions items domainPrefs ignoreCounts).Pairwise
      (fun a b => b.score < a.score ∨
        (a.score = b.score ∧ b.sessionStart ≤ a.sessionStart)) ∧
    (detectMixedSessions items domainPrefs ignoreCounts ++
        (((segment items).filterMap (mkSuggestion domainPrefs ignoreCounts)).mergeSort
          suggestionLe).drop 5).Perm
      ((segment items).filterMap (mkSuggestion domainPrefs ignoreCounts)) ∧
    (∀ b ∈ (((segment items).filterMap (mkSuggestion domainPrefs ignoreCounts)).mergeSort
        suggestionLe).drop 5,
      ∀ a ∈ detectMixedSessions items domainPrefs ignoreCounts, b.score ≤ a.score) := by
  have hout : detectMixedSessions items domainPrefs ignoreCounts =
      (((segment items).filterMap (mkSuggestion domainPrefs ignoreCounts)).mergeSort
        suggestionLe).take 5 := rfl
  have hpair : (((segment items).filterMap
      (mkSuggestion domainPrefs ignoreCounts)).mergeSort suggestionLe).Pairwise
        (fun a b => suggestionLe a b = true) := by
    simpa using List.sorted_mergeSort suggestionLe_trans suggestionLe_total
      ((segment items).filterMap (mkSuggestion domainPrefs ignoreCounts))
  refine ⟨?_, ?_, ?_, ?_, ?_⟩
  · rw [hout]
    exact List.length_take_le 5 _
  · intro s hs
    rw [hout] at hs
    have hmem : s ∈ (segment items).filterMap (mkSuggestion domainPrefs ignoreCounts) := by
      have hms := List.mem_of_mem_take hs
      rwa [List.mem_mergeSort] at hms
    obtain ⟨session, _, hmk⟩ := List.mem_filterMap.mp hmem
    exact mkSuggestion_gates domainPrefs ignoreCounts session s hmk
  · rw [hout]
    exact ((hpair.sublist (List.take_sublist 5 _)).imp
      (fun h => (suggestionLe_iff _ _).mp h))
  · rw [hout, List.take_append_drop]
    exact List.mergeSort_perm _ _
  · intro b hb a ha
    rw [hout] at ha
    have hcross := (List.pairwise_append.mp
      ((List.take_append_drop 5 (((segment items).filterMap
        (mkSuggestion domainPrefs ignoreCounts)).mergeSort suggestionLe)).symm ▸ hpair)).2.2
    rcases (suggestionLe_iff a b).mp (hcross a ha b hb) with h | h
    · exact le_of_lt h
    · exact le_of_eq h.1.symm

/-- Witness for C4 at the end-to-end example input: the surfaced suggestion
satisfies the gates, and the list is within the size bound. -/
theorem detect_ranking_witness :
    (detectMixedSessions ytRawItems noPrefs noCounts).length ≤ 5 ∧
    5 ≤ ((detectMixedSessions ytRawItems noPrefs noCounts).headD blankSuggestion).totalItems := by
  have hne : detectMixedSessions ytRawItems noPrefs noCounts ≠ [] := by
    intro hcontra
    have : (detectMixedSessions ytRawItems noPrefs noCounts).map (fun s =>
        (s.id, s.score, s.confidence, s.totalItems)) = [] := by rw [hcontra]; rfl
    rw [show (detectMixedSessions ytRawItems noPrefs noCounts).map (fun s =>
        (s.id, s.score, s.confidence, s.totalItems)) =
        [("session_1704290400000", 46 / 5, "high", 5)] from by with_unfolding_all rfl] at this
    exact absurd this (by simp)
  have hmem : (detectMixedSessions ytRawItems noPrefs noCounts).headD blankSuggestion ∈
      detectMixedSessions ytRawItems noPrefs noCounts := by
    cases hd : detectMixedSessions ytRawItems noPrefs noCounts with
    | nil => exact absurd hd hne
    | cons a l => simp
  exact ⟨(detect_ranking ytRawItems noPrefs noCounts).1,
    ((detect_ranking ytRawItems noPrefs noCounts).2.1 _ hmem).1⟩

end SmartHistory
